import Mathlib

/-!
# Shallow embedding of `src/main.rs` (backend-dogfight-23)

The service is a person registry backed by a Postgres table (`pessoas`),
a Redis set of used nicknames (`apelidos`), and a Redis key-value cache of
serialized person records keyed by the generated identifier.

Modelling choices:
- `Uuid` identifiers are modelled as `Nat`; `Uuid::new_v4()` is an input
  parameter of the handler (the generated fresh identifier).
- `NaiveDate` is modelled as `Nat` (a day number); the handlers never
  inspect the date.
- The Redis cache stores `serde_json::to_string(&pessoa)`; since serde
  serialization is injective and round-trips, the cache is modelled as an
  association list from the identifier to the `Pessoa` value itself.
- Fallible backend calls are driven by explicit oracle booleans
  (`insertOk`, `cacheReachable`, `cmdOk`, `storeOk`); a Rust
  `unwrap()` panic is modelled as `Except.error`.
- Postgres regex matching (`search_vector ~ $1`) is modelled by `rmatch`
  for the fragment of POSIX regular expressions consisting of literal
  characters and the metacharacter `.` (any single character); queries in
  this fragment exercise exactly the semantics the claims are about.
-/

namespace Dogfight

/-- The `Pessoa` struct of `main.rs` (request/response payload). -/
structure Pessoa where
  id : Option Nat
  apelido : Option String
  nome : Option String
  nascimento : Option Nat
  stack : Option (List String)
deriving DecidableEq, Repr

/-- `validate_stack`: every stack item has length at most 32. -/
def validate_stack (stack : List String) : Bool :=
  stack.all (fun item => item.length ≤ 32)

/-- The `#[derive(Validate)]` checks on `Pessoa`: `apelido` required with
length 1..=32, `nome` required with length 1..=100, `nascimento` required,
`stack` validated by `validate_stack` when present. -/
def validatePessoa (p : Pessoa) : Bool :=
  (match p.apelido with
   | some a => 1 ≤ a.length && a.length ≤ 32
   | none => false) &&
  (match p.nome with
   | some n => 1 ≤ n.length && n.length ≤ 100
   | none => false) &&
  p.nascimento.isSome &&
  (match p.stack with
   | some s => validate_stack s
   | none => true)

/-- A row of the Postgres table `pessoas`
(`id, apelido, nome, nascimento, stack, search_vector`). -/
structure PessoaRow where
  id : Nat
  apelido : Option String
  nome : Option String
  nascimento : Option Nat
  stack : Option (List String)
  search_vector : String
deriving DecidableEq, Repr

/-- The shared backend state: the Redis set `apelidos`, the Redis
key-value cache (identifier → serialized record), and the Postgres table
`pessoas`. -/
structure ServerState where
  apelidos : List String
  cache : List (Nat × Pessoa)
  pessoas : List PessoaRow
deriving DecidableEq, Repr

/-- Responses of `create_pessoa`. -/
inductive CreateResponse where
  | unprocessableValidation
  | unprocessableDup
  | created (location : String) (id : Nat)
  | internalError
deriving DecidableEq, Repr

/-- `stack_str`: `stack.join(" ")`, the empty string when the stack is
absent. -/
def stackStr (stack : Option (List String)) : String :=
  match stack with
  | some s => String.intercalate " " s
  | none => ""

/-- Rust `str::to_lowercase`, modelled characterwise (the payloads the
service handles are treated as sequences of characters; Rust lowercases
each character of the string in order). -/
def lowercase (s : String) : String :=
  ⟨s.data.map Char.toLower⟩

/-- The `search_text` computed in `create_pessoa`:
`format!("{} {} {}", nome, apelido, stack_str).to_lowercase()`. -/
def searchText (nome apelido : String) (stack : Option (List String)) : String :=
  lowercase (nome ++ " " ++ apelido ++ " " ++ stackStr stack)

/-- The handler `create_pessoa`.

`newId` is the value of `Uuid::new_v4()`; `insertOk` tells whether the
SQL `INSERT` succeeds. The Redis calls (`sadd`, `set`) are taken to
succeed: in the source they are `unwrap()`ed, so a Redis failure panics
before producing a response; the claims about the create path all concern
a reachable reservation backend. -/
def create_pessoa (p : Pessoa) (newId : Nat) (insertOk : Bool)
    (st : ServerState) : CreateResponse × ServerState :=
  if !(validatePessoa p) then (.unprocessableValidation, st)
  else
    let p := { p with id := some newId }
    let a := p.apelido.getD ""
    -- `sadd "apelidos" apelido` returns 0 iff the member was already present
    if a ∈ st.apelidos then (.unprocessableDup, st)
    else
      let st := { st with apelidos := a :: st.apelidos }
      -- `redis.set(id.to_string(), serialized_person)` — before the INSERT
      let st := { st with cache := (newId, p) :: st.cache }
      let search_text := searchText (p.nome.getD "") a p.stack
      if insertOk then
        let row : PessoaRow :=
          ⟨newId, p.apelido, p.nome, p.nascimento, p.stack, search_text⟩
        (.created ("/pessoas/" ++ toString newId) newId,
         { st with pessoas := st.pessoas ++ [row] })
      else (.internalError, st)

/-- Responses of `get_pessoa_by_id` (a cache hit returns the cached
serialization, which deserializes to the same `Pessoa`). -/
inductive GetResponse where
  | ok (p : Pessoa)
  | notFound
  | internalError
deriving DecidableEq, Repr

/-- `SELECT id, apelido, nome, nascimento, stack FROM pessoas` row
conversion (the `sqlx::FromRow` instance of `Pessoa`). -/
def rowToPessoa (r : PessoaRow) : Pessoa :=
  ⟨some r.id, r.apelido, r.nome, r.nascimento, r.stack⟩

/-- The handler `get_pessoa_by_id`.

`cacheReachable` drives `redis_pool.get().await.unwrap()`: when false the
`unwrap()` panics, modelled as `Except.error ()`. `cmdOk` drives
`redis.get(...)`, whose failure is converted to a miss by
`unwrap_or(None)`. `storeOk` drives the SQL query. -/
def get_pessoa_by_id (id : Nat) (cacheReachable cmdOk storeOk : Bool)
    (st : ServerState) : Except Unit GetResponse :=
  if !cacheReachable then .error ()
  else
    let pessoa_json : Option Pessoa :=
      if cmdOk then (st.cache.find? (fun e => e.1 = id)).map Prod.snd
      else none
    match pessoa_json with
    | some json_data => .ok (.ok json_data)
    | none =>
      if !storeOk then .ok .internalError
      else
        match st.pessoas.find? (fun r => r.id = id) with
        | some pessoa => .ok (.ok (rowToPessoa pessoa))
        | none => .ok .notFound

/-! ## Search: Postgres regex matching

`search_pessoa` runs `SELECT ... WHERE search_vector ~ $1 LIMIT 50`,
binding `query.t.to_lowercase()`. Postgres's `~` is an unanchored POSIX
regular-expression match, an external collaborator; we model its
semantics on the fragment of patterns built from literal characters and
the metacharacter `.` (which matches any single character). -/

/-- One pattern atom: a literal character or the `.` metacharacter. -/
inductive RAtom where
  | lit (c : Char)
  | dot
deriving DecidableEq, Repr

/-- Reading a query string as a pattern in the literal-and-dot fragment
of POSIX regular expressions. -/
def parsePattern (s : String) : List RAtom :=
  s.data.map (fun c => if c = '.' then RAtom.dot else RAtom.lit c)

/-- Whether a pattern atom matches one character. -/
def ratomMatch : RAtom → Char → Bool
  | .lit c, d => c = d
  | .dot, _ => true

/-- Whether the pattern matches a prefix of the text. -/
def matchHere : List RAtom → List Char → Bool
  | [], _ => true
  | _ :: _, [] => false
  | r :: rs, c :: cs => ratomMatch r c && matchHere rs cs

/-- Unanchored regex match (`text ~ pattern` in Postgres): the pattern
matches starting at some position of the text. -/
def rmatch (pattern text : String) : Bool :=
  (text.data.tails.any (fun suffix => matchHere (parsePattern pattern) suffix))

/-- Substring containment, the relation §4.2 of the spec attributes to
`search`. -/
def isSubstringOf (needle haystack : String) : Bool :=
  (haystack.data.tails.any (fun suffix => needle.data.isPrefixOf suffix))

/-- The handler `search_pessoa`: rows whose `search_vector` matches the
lowercased query `t` under Postgres `~`, capped by `LIMIT 50`, converted
by the `Pessoa` row mapper. -/
def search_pessoa (t : String) (st : ServerState) : List Pessoa :=
  ((st.pessoas.filter (fun r => rmatch (lowercase t) r.search_vector)).take 50).map
    rowToPessoa

/-- The handler `count_pessoas`: `SELECT COUNT(id) FROM pessoas` (`id` is
never null, so this is the number of rows). -/
def count_pessoas (st : ServerState) : Nat :=
  st.pessoas.length

/-! ## Concurrent create executions

§5 of the spec: requests are handled concurrently and the only shared
synchronization point is the Redis `SADD`, which is a single atomic
command. We model N in-flight `create_pessoa` executions as a small-step
system: each request is at a program counter between its backend calls,
and a schedule interleaves the calls; `SADD`, the cache `SET` and the SQL
`INSERT` are each one atomic step. The SQL insert is taken to succeed
(the claim concerns the reservation race under valid inputs). -/

/-- Program counter of one in-flight create request. -/
inductive ReqPc where
  | start
  | reserved
  | cachedRecord
  | done422validation
  | done422dup
  | done201
deriving DecidableEq, Repr

/-- One in-flight create request: its payload and the identifier its
`Uuid::new_v4()` produced. -/
structure Request where
  pessoa : Pessoa
  newId : Nat
deriving DecidableEq, Repr

/-- Configuration of the concurrent system: the shared backend state and
each request's program counter. -/
structure Config (n : Nat) where
  shared : ServerState
  pcs : Fin n → ReqPc

/-- One atomic step of request `i` (a no-op when the request is done).
Each branch mirrors the corresponding segment of `create_pessoa`. -/
def stepReq {n : Nat} (reqs : Fin n → Request) (i : Fin n)
    (cfg : Config n) : Config n :=
  let p0 := (reqs i).pessoa
  let newId := (reqs i).newId
  match cfg.pcs i with
  | .start =>
    if !(validatePessoa p0) then
      { cfg with pcs := Function.update cfg.pcs i .done422validation }
    else
      let a := p0.apelido.getD ""
      if a ∈ cfg.shared.apelidos then
        { cfg with pcs := Function.update cfg.pcs i .done422dup }
      else
        { shared := { cfg.shared with apelidos := a :: cfg.shared.apelidos },
          pcs := Function.update cfg.pcs i .reserved }
  | .reserved =>
    let p := { p0 with id := some newId }
    { shared := { cfg.shared with cache := (newId, p) :: cfg.shared.cache },
      pcs := Function.update cfg.pcs i .cachedRecord }
  | .cachedRecord =>
    let p := { p0 with id := some newId }
    let a := p0.apelido.getD ""
    let row : PessoaRow :=
      ⟨newId, p.apelido, p.nome, p.nascimento, p.stack,
        searchText (p.nome.getD "") a p.stack⟩
    { shared := { cfg.shared with pessoas := cfg.shared.pessoas ++ [row] },
      pcs := Function.update cfg.pcs i .done201 }
  | .done422validation => cfg
  | .done422dup => cfg
  | .done201 => cfg

/-- Run a schedule: the interleaving executes the listed requests'
next atomic steps in order. -/
def runSched {n : Nat} (reqs : Fin n → Request) (schedule : List (Fin n))
    (cfg : Config n) : Config n :=
  schedule.foldl (fun c i => stepReq reqs i c) cfg

/-- A request is finished. -/
def ReqPc.isDone : ReqPc → Bool
  | .done422validation => true
  | .done422dup => true
  | .done201 => true
  | _ => false

/-- A request that has passed the reservation: it holds the nickname. -/
def ReqPc.isWinner : ReqPc → Bool
  | .reserved => true
  | .cachedRecord => true
  | .done201 => true
  | _ => false

/-- Invariant of the concurrent create system for one shared nickname
`x`: either nobody has reserved `x` yet and every request is still at its
start, or `x` is reserved and exactly one request is past the
reservation while every other request is at its start or was denied. -/
def ReservationInv {n : Nat} (x : String) (cfg : Config n) : Prop :=
  (x ∉ cfg.shared.apelidos ∧ ∀ i, cfg.pcs i = ReqPc.start) ∨
  (x ∈ cfg.shared.apelidos ∧ ∃ k, (cfg.pcs k).isWinner = true ∧
    ∀ j, j ≠ k → cfg.pcs j = ReqPc.start ∨ cfg.pcs j = ReqPc.done422dup)

/-- True exactly on `created` responses. -/
def CreateResponse.isCreated : CreateResponse → Bool
  | .created _ _ => true
  | _ => false

/-- A sequence of create requests executed one after the other, each
given as payload, generated identifier and insert outcome; returns the
responses and the final state. -/
def runCreates (reqs : List (Pessoa × Nat × Bool)) (st : ServerState) :
    List CreateResponse × ServerState :=
  match reqs with
  | [] => ([], st)
  | (p, newId, insertOk) :: rest =>
    let out := create_pessoa p newId insertOk st
    let outRest := runCreates rest out.2
    (out.1 :: outRest.1, outRest.2)

/-! ## Concrete sample inputs (used by witnesses and counterexamples) -/

/-- The empty backend state. -/
def emptyState : ServerState := ⟨[], [], []⟩

/-- The example person of §8 of the spec
(`{nickname "zeca", nome "Jose", nascimento 1990-01-01, stack [rust]}`,
the date given as a day number). -/
def zecaPessoa : Pessoa := ⟨none, some "zeca", some "Jose", some 7305, some ["rust"]⟩

/-- A person whose name makes the regex-versus-substring distinction
observable: its search text is the lowercase string starting with abc. -/
def abcPessoa : Pessoa := ⟨none, some "x", some "abc", some 0, none⟩

/-- The person of the search test of §8: nickname joao, stack java/go. -/
def joaoPessoa : Pessoa := ⟨none, some "joao", some "Jose", some 7305, some ["java", "go"]⟩

/-- Three concurrent create requests sharing the nickname zeca, with
distinct generated identifiers. -/
def reqs3 : Fin 3 → Request := fun i => ⟨zecaPessoa, i.val + 1⟩

/-- A complete interleaving of the three requests: request 0 wins the
reservation and finishes; requests 1 and 2 are denied. -/
def sched3 : List (Fin 3) := [0, 0, 1, 0, 2]

/-- The initial configuration of the three concurrent requests. -/
def cfg3start : Config 3 := ⟨emptyState, fun _ => ReqPc.start⟩

/-! ## Unfolding lemmas shared by the claim proofs -/

/-- A valid create against a state that already reserved the nickname is
denied and leaves the state unchanged. -/
theorem create_pessoa_dup (q : Pessoa) (a : String) (newId : Nat)
    (insertOk : Bool) (st : ServerState)
    (hq : validatePessoa q = true) (haq : q.apelido = some a)
    (hmem : a ∈ st.apelidos) :
    create_pessoa q newId insertOk st = (.unprocessableDup, st) := by
  simp [create_pessoa, hq, haq, hmem]

/-! ## Theorems for the claims -/

/-- C2: a valid create whose nickname is already in the used-nicknames
set receives the duplicate-nickname unprocessable response and leaves the
whole backend state unchanged (in particular, no cache write and no
durable-store insert); with a nickname not in the set the reservation
succeeds and the nickname is added to the set. -/
theorem C2_duplicate_nickname_denied (p : Pessoa) (a : String) (newId : Nat)
    (insertOk : Bool) (st : ServerState)
    (hv : validatePessoa p = true) (ha : p.apelido = some a) :
    (a ∈ st.apelidos →
      create_pessoa p newId insertOk st = (.unprocessableDup, st)) ∧
    (a ∉ st.apelidos →
      a ∈ (create_pessoa p newId insertOk st).2.apelidos) := by
  constructor
  · intro hmem
    simp [create_pessoa, hv, ha, hmem]
  · intro hmem
    cases insertOk <;> simp [create_pessoa, hv, ha, hmem]

/-- C2 witness: with `zeca` already reserved, the create is denied with
the state untouched, and from the empty state the nickname is added. -/
theorem C2_duplicate_nickname_denied_witness :
    (create_pessoa zecaPessoa 1 true ⟨["zeca"], [], []⟩ =
      (.unprocessableDup, ⟨["zeca"], [], []⟩)) ∧
    "zeca" ∈ (create_pessoa zecaPessoa 1 true emptyState).2.apelidos := by
  refine ⟨?_, ?_⟩
  · exact (C2_duplicate_nickname_denied zecaPessoa "zeca" 1 true
      ⟨["zeca"], [], []⟩ (by decide) rfl).1 (by decide)
  · exact (C2_duplicate_nickname_denied zecaPessoa "zeca" 1 true
      emptyState (by decide) rfl).2 (by decide)

/-- C3 counterexample: a valid create whose durable insert fails has
already written the serialized record to the cache — the response is the
internal error, no row was inserted, yet the cache holds the record, so
the cache is populated without a successful insert, contradicting the
claimed Reserved → Persisted → Cached order. -/
theorem C3_cache_written_without_insert_counterexample :
    (create_pessoa zecaPessoa 1 false emptyState).1 =
      CreateResponse.internalError ∧
    (create_pessoa zecaPessoa 1 false emptyState).2.pessoas = [] ∧
    (create_pessoa zecaPessoa 1 false emptyState).2.cache =
      [(1, { zecaPessoa with id := some 1 })] := by
  refine ⟨rfl, rfl, rfl⟩

/-- C3 amended: on the create path the cache write happens after the
reservation but before the durable-store insert (order
Reserved → Cached → Persisted): whenever the reservation succeeds the
record is in the cache regardless of the insert outcome, and the table
gains the row exactly when the insert succeeds. -/
theorem C3_cache_before_insert (p : Pessoa) (a : String) (newId : Nat)
    (insertOk : Bool) (st : ServerState)
    (hv : validatePessoa p = true) (ha : p.apelido = some a)
    (hfresh : a ∉ st.apelidos) :
    (newId, { p with id := some newId }) ∈
      (create_pessoa p newId insertOk st).2.cache ∧
    (create_pessoa p newId insertOk st).2.pessoas =
      (if insertOk then
        st.pessoas ++
          [⟨newId, p.apelido, p.nome, p.nascimento, p.stack,
            searchText (p.nome.getD "") a p.stack⟩]
      else st.pessoas) := by
  cases insertOk <;> simp [create_pessoa, hv, ha, hfresh]

/-- C3 amended witness: concrete instance with the insert failing and
with it succeeding. -/
theorem C3_cache_before_insert_witness :
    (1, { zecaPessoa with id := some 1 }) ∈
      (create_pessoa zecaPessoa 1 false emptyState).2.cache ∧
    (create_pessoa zecaPessoa 1 false emptyState).2.pessoas = [] := by
  have h := C3_cache_before_insert zecaPessoa "zeca" 1 false emptyState
    (by decide) rfl (by decide)
  exact ⟨h.1, h.2⟩

/-- C5: when the reservation succeeds and the durable insert fails, the
response is the server error, no row is stored, yet the nickname stays in
the used-nicknames set, so every later valid create with that nickname is
denied as a duplicate. -/
theorem C5_reservation_not_rolled_back (p : Pessoa) (a : String)
    (newId : Nat) (st : ServerState)
    (hv : validatePessoa p = true) (ha : p.apelido = some a)
    (hfresh : a ∉ st.apelidos) :
    (create_pessoa p newId false st).1 = CreateResponse.internalError ∧
    a ∈ (create_pessoa p newId false st).2.apelidos ∧
    (create_pessoa p newId false st).2.pessoas = st.pessoas ∧
    (∀ (q : Pessoa) (newId2 : Nat) (insertOk2 : Bool),
      validatePessoa q = true → q.apelido = some a →
      (create_pessoa q newId2 insertOk2
        (create_pessoa p newId false st).2).1 =
        CreateResponse.unprocessableDup) := by
  refine ⟨?_, ?_, ?_, ?_⟩
  · simp [create_pessoa, hv, ha, hfresh]
  · simp [create_pessoa, hv, ha, hfresh]
  · simp [create_pessoa, hv, ha, hfresh]
  · intro q newId2 insertOk2 hq haq
    have hmem : a ∈ (create_pessoa p newId false st).2.apelidos := by
      simp [create_pessoa, hv, ha, hfresh]
    rw [create_pessoa_dup q a newId2 insertOk2 _ hq haq hmem]

/-- C5 witness: the orphaned-reservation scenario on the example person
from the empty state, with the retry using a fresh identifier. -/
theorem C5_reservation_not_rolled_back_witness :
    (create_pessoa zecaPessoa 1 false emptyState).1 =
      CreateResponse.internalError ∧
    (create_pessoa zecaPessoa 2 true
      (create_pessoa zecaPessoa 1 false emptyState).2).1 =
      CreateResponse.unprocessableDup := by
  have h := C5_reservation_not_rolled_back zecaPessoa "zeca" 1 emptyState
    (by decide) rfl (by decide)
  exact ⟨h.1, h.2.2.2 zecaPessoa 2 true (by decide) rfl⟩

/-- C8: the search text stored with a created record is the lowercase
space-separated concatenation of name, nickname and the space-joined
stack, the stack part being the empty string when the stack is absent. -/
theorem C8_search_text_formula (p : Pessoa) (a nm : String) (newId : Nat)
    (st : ServerState)
    (hv : validatePessoa p = true) (ha : p.apelido = some a)
    (hn : p.nome = some nm) (hfresh : a ∉ st.apelidos) :
    (create_pessoa p newId true st).2.pessoas =
      st.pessoas ++
        [⟨newId, some a, some nm, p.nascimento, p.stack,
          lowercase (nm ++ " " ++ a ++ " " ++
            (match p.stack with
             | some s => String.intercalate " " s
             | none => ""))⟩] := by
  simp [create_pessoa, hv, ha, hn, hfresh, searchText, stackStr]

/-- C8 witness: the example person stores search text
`jose zeca rust`; a stackless person stores a trailing-space text. -/
theorem C8_search_text_formula_witness :
    (create_pessoa zecaPessoa 1 true emptyState).2.pessoas =
      [⟨1, some "zeca", some "Jose", some 7305, some ["rust"],
        "jose zeca rust"⟩] := by
  have h := C8_search_text_formula zecaPessoa "zeca" "Jose" 1 emptyState
    (by decide) rfl rfl (by decide)
  exact h.trans (by decide)

/-- After a create whose reservation succeeded, the cached record is
returned by a cache-hit read, whatever the insert outcome was. -/
theorem create_then_get_hit (p : Pessoa) (a : String) (newId : Nat)
    (insertOk : Bool) (st : ServerState)
    (hv : validatePessoa p = true) (ha : p.apelido = some a)
    (hfresh : a ∉ st.apelidos) :
    get_pessoa_by_id newId true true true
      (create_pessoa p newId insertOk st).2 =
      .ok (.ok { p with id := some newId }) := by
  cases insertOk <;>
    simp [create_pessoa, hv, ha, hfresh, get_pessoa_by_id, List.find?]

/-- After a successful create, a read whose cache command fails falls
back to the durable store and returns the inserted row. -/
theorem create_then_get_fallback (p : Pessoa) (a : String) (newId : Nat)
    (st : ServerState)
    (hv : validatePessoa p = true) (ha : p.apelido = some a)
    (hfresh : a ∉ st.apelidos)
    (hid : ∀ r ∈ st.pessoas, r.id ≠ newId) :
    get_pessoa_by_id newId true false true
      (create_pessoa p newId true st).2 =
      .ok (.ok { p with id := some newId }) := by
  have hstate : (create_pessoa p newId true st).2.pessoas =
      st.pessoas ++
        [⟨newId, p.apelido, p.nome, p.nascimento, p.stack,
          searchText (p.nome.getD "") a p.stack⟩] := by
    simp [create_pessoa, hv, ha, hfresh]
  have hnone : st.pessoas.find? (fun r => r.id = newId) = none :=
    List.find?_eq_none.mpr (fun r hr => by simp [hid r hr])
  simp only [get_pessoa_by_id, Bool.not_true, Bool.not_false, if_neg,
    Bool.false_eq_true, if_false, hstate]
  rw [List.find?_append, hnone]
  simp [rowToPessoa, ha]

/-- C10: when a valid create passes the reservation but its durable
insert fails, the serialized record stays in the cache under the
generated identifier, so a later get-by-id finds it there and answers
with the record, even though the durable store holds no row with that
identifier. -/
theorem C10_stale_cache_after_failed_insert (p : Pessoa) (a : String)
    (newId : Nat) (st : ServerState)
    (hv : validatePessoa p = true) (ha : p.apelido = some a)
    (hfresh : a ∉ st.apelidos)
    (hid : ∀ r ∈ st.pessoas, r.id ≠ newId) :
    (create_pessoa p newId false st).1 = CreateResponse.internalError ∧
    get_pessoa_by_id newId true true true
      (create_pessoa p newId false st).2 =
      .ok (.ok { p with id := some newId }) ∧
    (create_pessoa p newId false st).2.pessoas.find?
      (fun r => r.id = newId) = none := by
  refine ⟨?_, create_then_get_hit p a newId false st hv ha hfresh, ?_⟩
  · simp [create_pessoa, hv, ha, hfresh]
  · have hstate : (create_pessoa p newId false st).2.pessoas = st.pessoas := by
      simp [create_pessoa, hv, ha, hfresh]
    rw [hstate]
    exact List.find?_eq_none.mpr (fun r hr => by simp [hid r hr])

/-- C10 witness: the example person with a failing insert from the empty
state. -/
theorem C10_stale_cache_after_failed_insert_witness :
    (create_pessoa zecaPessoa 1 false emptyState).1 =
      CreateResponse.internalError ∧
    get_pessoa_by_id 1 true true true
      (create_pessoa zecaPessoa 1 false emptyState).2 =
      .ok (.ok { zecaPessoa with id := some 1 }) := by
  have h := C10_stale_cache_after_failed_insert zecaPessoa "zeca" 1
    emptyState (by decide) rfl (by decide) (by intro r hr; cases hr)
  exact ⟨h.1, h.2.1⟩

/-- C6: a valid create answers with the location holding the generated
identifier, and fetching that identifier returns the input record with
the server-assigned identifier filled in, both on the cache-hit path and
on the store-fallback path. -/
theorem C6_create_get_round_trip (p : Pessoa) (a : String) (newId : Nat)
    (st : ServerState)
    (hv : validatePessoa p = true) (ha : p.apelido = some a)
    (hfresh : a ∉ st.apelidos)
    (hid : ∀ r ∈ st.pessoas, r.id ≠ newId) :
    (create_pessoa p newId true st).1 =
      CreateResponse.created ("/pessoas/" ++ toString newId) newId ∧
    get_pessoa_by_id newId true true true
      (create_pessoa p newId true st).2 =
      .ok (.ok { p with id := some newId }) ∧
    get_pessoa_by_id newId true false true
      (create_pessoa p newId true st).2 =
      .ok (.ok { p with id := some newId }) := by
  refine ⟨?_, create_then_get_hit p a newId true st hv ha hfresh,
    create_then_get_fallback p a newId st hv ha hfresh hid⟩
  simp [create_pessoa, hv, ha, hfresh]

/-- C6 witness: the example person round-trips from the empty state on
both read paths. -/
theorem C6_create_get_round_trip_witness :
    (create_pessoa zecaPessoa 1 true emptyState).1 =
      CreateResponse.created "/pessoas/1" 1 ∧
    get_pessoa_by_id 1 true true true
      (create_pessoa zecaPessoa 1 true emptyState).2 =
      .ok (.ok { zecaPessoa with id := some 1 }) ∧
    get_pessoa_by_id 1 true false true
      (create_pessoa zecaPessoa 1 true emptyState).2 =
      .ok (.ok { zecaPessoa with id := some 1 }) := by
  have h := C6_create_get_round_trip zecaPessoa "zeca" 1 emptyState
    (by decide) rfl (by decide) (by intro r hr; cases hr)
  exact ⟨h.1.trans (by decide), h.2.1, h.2.2⟩

/-- C4 counterexample: after a successful create the row is durably
stored, yet a get-by-id issued while the cache backend connection cannot
be acquired panics (the `unwrap` on the pool) instead of falling back to
the durable store — the cache failure is propagated to the caller. -/
theorem C4_cache_unreachable_panics_counterexample :
    (create_pessoa zecaPessoa 1 true emptyState).1 =
      CreateResponse.created "/pessoas/1" 1 ∧
    ((create_pessoa zecaPessoa 1 true emptyState).2.pessoas.find?
      (fun r => r.id = 1)).isSome = true ∧
    get_pessoa_by_id 1 false true true
      (create_pessoa zecaPessoa 1 true emptyState).2 = .error () := by
  refine ⟨rfl, rfl, rfl⟩

/-- C4 amended: when the cache backend connection is acquired, a failing
or missing cache read command is never propagated: the read falls back to
the durable store and returns the stored record or not-found, and after a
successful create the same data comes back whether or not the cache
command succeeds; but when the cache backend connection cannot be
acquired, the handler panics instead of falling back. -/
theorem C4_fallback_only_past_connection (p : Pessoa) (a : String)
    (newId : Nat) (st : ServerState)
    (hv : validatePessoa p = true) (ha : p.apelido = some a)
    (hfresh : a ∉ st.apelidos)
    (hid : ∀ r ∈ st.pessoas, r.id ≠ newId) :
    (∀ cmdOk : Bool,
      get_pessoa_by_id newId true cmdOk true
        (create_pessoa p newId true st).2 =
        .ok (.ok { p with id := some newId })) ∧
    (∀ (id2 : Nat) (cmdOk storeOk : Bool) (st2 : ServerState),
      get_pessoa_by_id id2 true cmdOk storeOk st2 ≠ .error ()) ∧
    (∀ (id2 : Nat) (st2 : ServerState),
      get_pessoa_by_id id2 true false true st2 =
        .ok (match st2.pessoas.find? (fun r => r.id = id2) with
             | some r => .ok (rowToPessoa r)
             | none => .notFound)) ∧
    (∀ (id2 : Nat) (cmdOk storeOk : Bool) (st2 : ServerState),
      get_pessoa_by_id id2 false cmdOk storeOk st2 = .error ()) := by
  refine ⟨?_, ?_, ?_, ?_⟩
  · intro cmdOk
    cases cmdOk
    · exact create_then_get_fallback p a newId st hv ha hfresh hid
    · exact create_then_get_hit p a newId true st hv ha hfresh
  · intro id2 cmdOk storeOk st2
    simp only [get_pessoa_by_id, Bool.not_true, Bool.false_eq_true, if_false]
    split
    · simp
    · split
      · simp
      · split <;> simp
  · intro id2 st2
    rcases h : (st2.pessoas.find? (fun r => r.id = id2)) with _ | r <;>
      simp [get_pessoa_by_id, h]
  · intro id2 cmdOk storeOk st2
    simp [get_pessoa_by_id]

/-- C4 amended witness: concrete instances of all four conjuncts on the
example person. -/
theorem C4_fallback_only_past_connection_witness :
    get_pessoa_by_id 1 true false true
      (create_pessoa zecaPessoa 1 true emptyState).2 =
      .ok (.ok { zecaPessoa with id := some 1 }) ∧
    get_pessoa_by_id 1 false true true emptyState = .error () := by
  have h := C4_fallback_only_past_connection zecaPessoa "zeca" 1 emptyState
    (by decide) rfl (by decide) (by intro r hr; cases hr)
  exact ⟨h.1 false, h.2.2.2 1 true true emptyState⟩

/-- On patterns with no metacharacter, `matchHere` is prefix testing. -/
theorem matchHere_all_lits (ps cs : List Char) (h : ∀ c ∈ ps, ¬ c = '.') :
    matchHere (ps.map (fun c => if c = '.' then RAtom.dot else RAtom.lit c)) cs =
      ps.isPrefixOf cs := by
  induction ps generalizing cs with
  | nil => simp [matchHere, List.isPrefixOf]
  | cons p ps ih =>
    cases cs with
    | nil => simp [matchHere, List.isPrefixOf]
    | cons c cs =>
      have hp : ¬ p = '.' := h p (by simp)
      by_cases hpc : p = c
      · subst hpc
        simp [matchHere, List.isPrefixOf, hp, ratomMatch,
          ih cs (fun x hx => h x (by simp [hx]))]
      · simp [matchHere, List.isPrefixOf, hp, ratomMatch, hpc]

/-- On queries with no metacharacter, the Postgres regex match used by
`search_pessoa` coincides with substring containment. -/
theorem rmatch_eq_isSubstringOf (pat text : String)
    (h : ∀ c ∈ pat.data, ¬ c = '.') :
    rmatch pat text = isSubstringOf pat text := by
  unfold rmatch isSubstringOf
  congr 1
  funext cs
  exact matchHere_all_lits pat.data cs h

/-- C7 counterexample: the query `a.c` returns the record whose search
text is `abc x `, although `a.c` is not a substring of that search text —
the store matches the query as a regular expression (`.` matches any
character), not by substring containment as the claim states. -/
theorem C7_regex_not_substring_counterexample :
    search_pessoa "a.c" (create_pessoa abcPessoa 1 true emptyState).2 =
      [{ abcPessoa with id := some 1 }] ∧
    (create_pessoa abcPessoa 1 true emptyState).2.pessoas =
      [⟨1, some "x", some "abc", some 0, none, "abc x "⟩] ∧
    isSubstringOf (lowercase "a.c") "abc x " = false := by
  refine ⟨by decide, by decide, by decide⟩

/-- C7 amended: search returns at most 50 records; every returned record
comes from a stored row whose search text matches the lowercased query as
a POSIX regular expression, and (when at most 50 rows match) every
matching row is returned; for queries free of regex metacharacters this
matching is exactly substring containment, so the stated example (query
`jav` against `joao` with stack java/go) behaves as claimed. -/
theorem C7_search_regex_semantics (t : String) (st : ServerState)
    (hcap : (st.pessoas.filter
      (fun r => rmatch (lowercase t) r.search_vector)).length ≤ 50) :
    (search_pessoa t st).length ≤ 50 ∧
    (∀ q ∈ search_pessoa t st, ∃ r, r ∈ st.pessoas ∧
      rmatch (lowercase t) r.search_vector = true ∧ q = rowToPessoa r) ∧
    (∀ r ∈ st.pessoas, rmatch (lowercase t) r.search_vector = true →
      rowToPessoa r ∈ search_pessoa t st) ∧
    (∀ (pat text : String), (∀ c ∈ pat.data, ¬ c = '.') →
      rmatch pat text = isSubstringOf pat text) := by
  refine ⟨?_, ?_, ?_, fun pat text h => rmatch_eq_isSubstringOf pat text h⟩
  · unfold search_pessoa
    rw [List.length_map, List.length_take]
    exact min_le_left _ _
  · intro q hq
    unfold search_pessoa at hq
    obtain ⟨r, hr, hq2⟩ := List.mem_map.mp hq
    have hr2 := List.mem_filter.mp (List.mem_of_mem_take hr)
    exact ⟨r, hr2.1, hr2.2, hq2.symm⟩
  · intro r hr hmatch
    unfold search_pessoa
    rw [List.take_of_length_le hcap]
    exact List.mem_map_of_mem _ (List.mem_filter.mpr ⟨hr, hmatch⟩)

/-- C7 amended witness: the example of §8 — after creating `joao` with
stack java/go, the query `jav` returns that person, and on this
metacharacter-free query the regex match is substring containment. -/
theorem C7_search_regex_semantics_witness :
    rowToPessoa ⟨1, some "joao", some "Jose", some 7305, some ["java", "go"],
        "jose joao java go"⟩ ∈
      search_pessoa "jav" (create_pessoa joaoPessoa 1 true emptyState).2 ∧
    rmatch "jav" "jose joao java go" =
      isSubstringOf "jav" "jose joao java go" := by
  have h := C7_search_regex_semantics "jav"
    (create_pessoa joaoPessoa 1 true emptyState).2 (by decide)
  exact ⟨h.2.2.1
      ⟨1, some "joao", some "Jose", some 7305, some ["java", "go"],
        "jose joao java go"⟩ (by decide) (by decide),
    h.2.2.2 "jav" "jose joao java go" (by decide)⟩

/-- The table length grows by one exactly on a created response. -/
theorem create_pessoa_pessoas_length (p : Pessoa) (newId : Nat)
    (insertOk : Bool) (st : ServerState) :
    (create_pessoa p newId insertOk st).2.pessoas.length =
      st.pessoas.length +
        (if (create_pessoa p newId insertOk st).1.isCreated then 1 else 0) := by
  cases h1 : validatePessoa p
  · simp [create_pessoa, h1, CreateResponse.isCreated]
  · by_cases h2 : p.apelido.getD "" ∈ st.apelidos
    · simp [create_pessoa, h1, h2, CreateResponse.isCreated]
    · cases insertOk <;> simp [create_pessoa, h1, h2, CreateResponse.isCreated]

/-- C9: the count is the number of rows in the durable store; after a
sequence of creates that all answered created, the count is the count
before plus the number of creates, and any create that did not answer
created (denied, invalid or failed insert) leaves the count unchanged. -/
theorem C9_count_after_creates (reqs : List (Pessoa × Nat × Bool))
    (st : ServerState) :
    count_pessoas st = st.pessoas.length ∧
    ((∀ resp ∈ (runCreates reqs st).1, resp.isCreated = true) →
      count_pessoas (runCreates reqs st).2 =
        count_pessoas st + reqs.length) ∧
    (∀ (p : Pessoa) (newId : Nat) (insertOk : Bool) (st2 : ServerState),
      (create_pessoa p newId insertOk st2).1.isCreated = false →
      count_pessoas (create_pessoa p newId insertOk st2).2 =
        count_pessoas st2) := by
  refine ⟨rfl, ?_, ?_⟩
  · induction reqs generalizing st with
    | nil =>
      intro _
      simp [runCreates, count_pessoas]
    | cons req rest ih =>
      intro hall
      obtain ⟨p, newId, insertOk⟩ := req
      have hlist : (runCreates ((p, newId, insertOk) :: rest) st).1 =
          (create_pessoa p newId insertOk st).1 ::
            (runCreates rest (create_pessoa p newId insertOk st).2).1 := by
        simp [runCreates]
      have hst : (runCreates ((p, newId, insertOk) :: rest) st).2 =
          (runCreates rest (create_pessoa p newId insertOk st).2).2 := by
        simp [runCreates]
      have hhead : (create_pessoa p newId insertOk st).1.isCreated = true := by
        apply hall
        rw [hlist]
        exact List.mem_cons_self _ _
      have htail : ∀ resp ∈
          (runCreates rest (create_pessoa p newId insertOk st).2).1,
          resp.isCreated = true := by
        intro resp hresp
        apply hall
        rw [hlist]
        exact List.mem_cons_of_mem _ hresp
      have hc1 : count_pessoas (create_pessoa p newId insertOk st).2 =
          count_pessoas st + 1 := by
        unfold count_pessoas
        rw [create_pessoa_pessoas_length p newId insertOk st, hhead]
        simp
      rw [hst, ih _ htail, hc1, List.length_cons]
      omega
  · intro p newId insertOk st2 hfail
    unfold count_pessoas
    rw [create_pessoa_pessoas_length p newId insertOk st2, hfail]
    simp

/-- C9 witness: two successful creates from the empty state raise the
count from 0 to 2, and a third create denied as a duplicate leaves it. -/
theorem C9_count_after_creates_witness :
    count_pessoas
      (runCreates [(zecaPessoa, 1, true), (joaoPessoa, 2, true)]
        emptyState).2 = count_pessoas emptyState + 2 ∧
    count_pessoas (create_pessoa zecaPessoa 3 true
      (runCreates [(zecaPessoa, 1, true), (joaoPessoa, 2, true)]
        emptyState).2).2 =
      count_pessoas
        (runCreates [(zecaPessoa, 1, true), (joaoPessoa, 2, true)]
          emptyState).2 := by
  have h := C9_count_after_creates
    [(zecaPessoa, 1, true), (joaoPessoa, 2, true)] emptyState
  exact ⟨h.2.1 (by decide),
    h.2.2 zecaPessoa 3 true
      (runCreates [(zecaPessoa, 1, true), (joaoPessoa, 2, true)]
        emptyState).2 (by decide)⟩

/-- One atomic step preserves the reservation invariant when every
request carries a valid payload with the shared nickname. -/
theorem ReservationInv_step {n : Nat} (reqs : Fin n → Request) (x : String)
    (hreq : ∀ i, validatePessoa (reqs i).pessoa = true ∧
      (reqs i).pessoa.apelido = some x)
    (i : Fin n) (cfg : Config n) (hinv : ReservationInv x cfg) :
    ReservationInv x (stepReq reqs i cfg) := by
  have hv := (hreq i).1
  have hx := (hreq i).2
  cases hpc : cfg.pcs i
  case start =>
    simp only [stepReq, hpc, hv, hx, Bool.not_true, Bool.false_eq_true,
      if_false, Option.getD_some]
    rcases hinv with ⟨hnot, hall⟩ | ⟨hmem, k, hkw, hrest⟩
    · rw [if_neg hnot]
      refine Or.inr ⟨List.mem_cons_self _ _, i, ?_, ?_⟩
      · simp [Function.update_same, ReqPc.isWinner]
      · intro j hj
        simp only [Function.update_noteq hj]
        exact Or.inl (hall j)
    · rw [if_pos hmem]
      have hik : i ≠ k := by
        intro he
        rw [← he, hpc] at hkw
        exact absurd hkw (by decide)
      refine Or.inr ⟨hmem, k, ?_, ?_⟩
      · simp only [Function.update_noteq (Ne.symm hik)]
        exact hkw
      · intro j hj
        by_cases hji : j = i
        · subst hji
          simp [Function.update_same]
        · simp only [Function.update_noteq hji]
          exact hrest j hj
  case reserved =>
    simp only [stepReq, hpc]
    rcases hinv with ⟨hnot, hall⟩ | ⟨hmem, k, hkw, hrest⟩
    · have h0 := hall i
      rw [hpc] at h0
      exact absurd h0 (by decide)
    · have hik : i = k := by
        by_contra hne
        rcases hrest i hne with h | h <;> rw [hpc] at h <;>
          exact absurd h (by decide)
      subst hik
      refine Or.inr ⟨hmem, i, ?_, ?_⟩
      · simp [Function.update_same, ReqPc.isWinner]
      · intro j hj
        simp only [Function.update_noteq hj]
        exact hrest j hj
  case cachedRecord =>
    simp only [stepReq, hpc]
    rcases hinv with ⟨hnot, hall⟩ | ⟨hmem, k, hkw, hrest⟩
    · have h0 := hall i
      rw [hpc] at h0
      exact absurd h0 (by decide)
    · have hik : i = k := by
        by_contra hne
        rcases hrest i hne with h | h <;> rw [hpc] at h <;>
          exact absurd h (by decide)
      subst hik
      refine Or.inr ⟨hmem, i, ?_, ?_⟩
      · simp [Function.update_same, ReqPc.isWinner]
      · intro j hj
        simp only [Function.update_noteq hj]
        exact hrest j hj
  case done422validation =>
    simpa only [stepReq, hpc] using hinv
  case done422dup =>
    simpa only [stepReq, hpc] using hinv
  case done201 =>
    simpa only [stepReq, hpc] using hinv

/-- Any interleaving preserves the reservation invariant. -/
theorem ReservationInv_runSched {n : Nat} (reqs : Fin n → Request)
    (x : String)
    (hreq : ∀ i, validatePessoa (reqs i).pessoa = true ∧
      (reqs i).pessoa.apelido = some x)
    (schedule : List (Fin n)) (cfg : Config n)
    (hinv : ReservationInv x cfg) :
    ReservationInv x (runSched reqs schedule cfg) := by
  induction schedule generalizing cfg with
  | nil => exact hinv
  | cons i rest ih =>
    exact ih (stepReq reqs i cfg) (ReservationInv_step reqs x hreq i cfg hinv)

/-- C1: for N concurrent create requests with valid payloads sharing one
nickname that is not yet reserved, any complete interleaving of their
atomic backend calls ends with exactly one request created and all other
requests answered with the duplicate-nickname unprocessable response —
no interleaving allows two successes. -/
theorem C1_exactly_one_create_succeeds {n : Nat} (reqs : Fin n → Request)
    (x : String) (schedule : List (Fin n)) (st0 : ServerState)
    (hreq : ∀ i, validatePessoa (reqs i).pessoa = true ∧
      (reqs i).pessoa.apelido = some x)
    (hx : x ∉ st0.apelidos) (hn : 0 < n)
    (hdone : ∀ i,
      ((runSched reqs schedule ⟨st0, fun _ => ReqPc.start⟩).pcs i).isDone =
        true) :
    (∃! i, (runSched reqs schedule ⟨st0, fun _ => ReqPc.start⟩).pcs i =
      ReqPc.done201) ∧
    (∀ j, (runSched reqs schedule ⟨st0, fun _ => ReqPc.start⟩).pcs j ≠
        ReqPc.done201 →
      (runSched reqs schedule ⟨st0, fun _ => ReqPc.start⟩).pcs j =
        ReqPc.done422dup) := by
  have hinv0 : ReservationInv x (⟨st0, fun _ => ReqPc.start⟩ : Config n) :=
    Or.inl ⟨hx, fun _ => rfl⟩
  have hinv := ReservationInv_runSched reqs x hreq schedule _ hinv0
  rcases hinv with ⟨_, hall⟩ | ⟨_, k, hkw, hrest⟩
  · have h0 := hdone ⟨0, hn⟩
    rw [hall ⟨0, hn⟩] at h0
    exact absurd h0 (by decide)
  · have hk : (runSched reqs schedule ⟨st0, fun _ => ReqPc.start⟩).pcs k =
        ReqPc.done201 := by
      have hd := hdone k
      cases hpk : (runSched reqs schedule ⟨st0, fun _ => ReqPc.start⟩).pcs k <;>
        rw [hpk] at hd hkw <;>
        first
        | rfl
        | exact absurd hd (by decide)
        | exact absurd hkw (by decide)
    constructor
    · refine ⟨k, hk, ?_⟩
      intro j hj
      by_contra hne
      rcases hrest j hne with h | h <;> rw [hj] at h <;>
        exact absurd h (by decide)
    · intro j hj
      by_cases hjk : j = k
      · subst hjk
        exact absurd hk hj
      · rcases hrest j hjk with h | h
        · have hd := hdone j
          rw [h] at hd
          exact absurd hd (by decide)
        · exact h

/-- C1 witness: three concrete concurrent creates of the nickname zeca
under a complete interleaving — the hypotheses hold and exactly one
request is created, the other two denied. -/
theorem C1_exactly_one_create_succeeds_witness :
    (0 : Nat) < 3 ∧
    ((∃! i, (runSched reqs3 sched3 ⟨emptyState, fun _ => ReqPc.start⟩).pcs i =
      ReqPc.done201) ∧
    (∀ j, (runSched reqs3 sched3 ⟨emptyState, fun _ => ReqPc.start⟩).pcs j ≠
        ReqPc.done201 →
      (runSched reqs3 sched3 ⟨emptyState, fun _ => ReqPc.start⟩).pcs j =
        ReqPc.done422dup)) :=
  ⟨by decide,
    C1_exactly_one_create_succeeds reqs3 "zeca" sched3 emptyState
      (by decide) (by decide) (by decide) (by decide)⟩

end Dogfight
